import Mathlib

/-!
# Verification of the SAM.gov harvesting pipeline (`src/main.py`)

A shallow embedding of the scraper's core pipeline:

* `search_opportunities`  — response handling of the paginated search call
  (`main.py` lines 199-210);
* `get_opportunity_details` — the best-effort detail fetch (lines 323-335);
* `handleAttachment` / `get_and_download_attachments` — the per-attachment
  manifest filtering, access-level gating and the browser-session download
  attempt (lines 338-470);
* `process_opportunity` — record assembly (lines 213-320);
* `procStep` / `processPage` / `runPages` — the orchestrator loop of `main`
  (lines 85-141): pagination, dedup, the record budget.

Network and browser effects are modelled by an explicit environment `Env` of
oracles giving each external call's outcome, and the definitions additionally
return an event trace (`Ev`) recording which external operations the code
performs, plus the list of key-value-store writes.  Bytes are `List Nat`.
Python's Unicode-aware `str.isalnum` is modelled by `Char.isAlphanum`
(the ASCII fragment).
-/

set_option autoImplicit false

namespace SamGov

/-- File payloads: a byte string, one `Nat` per byte. -/
abbrev Bytes := List Nat

/-! ## Data model: search summaries and detail documents -/

/-- One entry of `organizationHierarchy`: a dict from which only `name` is read. -/
structure OrgEntry where
  name : Option String
deriving DecidableEq, Repr

/-- The `type` sub-object of a summary: `safe_get(opp, "type", "value"/"code")`. -/
structure TypeObj where
  value : Option String
  code : Option String
deriving DecidableEq, Repr

/-- An `OpportunitySummary` as returned by the search call: exactly the keys
`main.py` reads from a search result.  `oppId` is `opp.get("_id")`, which may
be absent (`none`). A `descriptions` entry is its `content` value. -/
structure Summary where
  oppId : Option String
  solicitationNumber : Option String
  title : Option String
  typ : Option TypeObj
  publishDate : Option String
  modifiedDate : Option String
  responseDate : Option String
  responseTimeZone : Option String
  isActive : Option Bool
  isCanceled : Option Bool
  organizationHierarchy : List OrgEntry
  descriptions : List (Option String)
deriving DecidableEq, Repr

/-- An object carrying `name` and `code` keys (city / state / country of the
place of performance); `safe_get` defaults each missing layer to `none`. -/
structure NamedCode where
  name : Option String
  code : Option String
deriving DecidableEq, Repr

/-- The `placeOfPerformance` sub-document. -/
structure PopDoc where
  city : Option NamedCode
  state : Option NamedCode
  country : Option NamedCode
deriving DecidableEq, Repr

/-- A `pointOfContact` entry (the keys read at lines 291-297). -/
structure ContactDoc where
  fullName : Option String
  email : Option String
  phone : Option String
  fax : Option String
  title : Option String
  typ : Option String
deriving DecidableEq, Repr

/-- The `awardee` sub-object; a non-dict or absent awardee is `none`. -/
structure AwardeeDoc where
  name : Option String
  ueiSAM : Option String
deriving DecidableEq, Repr

/-- The `award` sub-object; absent / falsy / non-dict values are `none` at the
use site. -/
structure AwardDoc where
  amount : Option String
  awardee : Option AwardeeDoc
deriving DecidableEq, Repr

/-- `typeOfSetAside`: only consulted when it is a truthy dict, else `none`. -/
structure SetAsideVal where
  code : Option String
  value : Option String
deriving DecidableEq, Repr

/-- One `naics` entry: its `code` key, a list of strings (`or []` applied). -/
structure NaicsEntry where
  code : List String
deriving DecidableEq, Repr

/-- The `data2` sub-document of a detail response. -/
structure Data2 where
  naics : List NaicsEntry
  classificationCode : Option String
  typeOfSetAside : Option SetAsideVal
  placeOfPerformance : Option PopDoc
  pointOfContact : List (Option ContactDoc)
  award : Option AwardDoc
deriving DecidableEq, Repr

/-- The empty `data2` used when the key is absent (`details.get("data2", {}) or {}`). -/
def emptyData2 : Data2 :=
  { naics := [], classificationCode := none, typeOfSetAside := none,
    placeOfPerformance := none, pointOfContact := [], award := none }

/-- A parsed detail document; `data2` may be absent. -/
structure DetailDoc where
  data2 : Option Data2
deriving DecidableEq, Repr

/-! ## Data model: attachment manifest entries and output descriptors -/

/-- A raw manifest entry: exactly the keys read at lines 372-393 of `main.py`.
`none` in a field models an absent (or `null`) key, so that each
`attachment.get(key, default)` has its default applied in the embedding. -/
structure RawAttachment where
  deletedFlag : Option String
  resourceId : Option String
  name : Option String
  mimeType : Option String
  size : Nat
  accessLevel : Option String
  postedDate : Option String
deriving DecidableEq, Repr

/-- The per-file output dict (`file_info`).  `downloadError`, `storageKey` and
`downloadedSize` are `none` when the corresponding key was never set. -/
structure FileInfo where
  filename : String
  typ : String
  size : Nat
  resourceId : String
  accessLevel : String
  postedDate : Option String
  downloadUrl : String
  downloadError : Option String := none
  storageKey : Option String := none
  downloadedSize : Option Nat := none
deriving DecidableEq, Repr

/-- A contact in the output record. -/
structure Contact where
  name : Option String
  email : Option String
  phone : Option String
  fax : Option String
  title : Option String
  typ : Option String
deriving DecidableEq, Repr

/-- The `placeOfPerformance` object of the output record. -/
structure PlaceOfPerformance where
  city : Option String
  state : Option String
  stateCode : Option String
  country : Option String
  countryCode : Option String
deriving DecidableEq, Repr

/-- The `award` object of the output record. -/
structure Award where
  amount : Option String
  awardee : Option String
  awardeeUei : Option String
deriving DecidableEq, Repr

/-- The assembled `opportunity_data` record.  For detail-derived fields an
outer `none` means the key was never put into the dict (detail fetch absent,
or the guarding branch not taken); the inner option is the stored value. -/
structure OppRecord where
  opportunityId : String
  solicitationNumber : Option String
  title : Option String
  description : String
  typ : Option String
  typeCode : Option String
  postedDate : Option String
  modifiedDate : Option String
  responseDeadline : Option String
  responseTimeZone : Option String
  isActive : Option Bool
  isCanceled : Option Bool
  agencyName : Option String
  subAgencyName : Option String
  officeName : Option String
  samGovLink : String
  attachments : List FileInfo
  attachmentTexts : List (String × String)
  scrapedAt : String
  naicsCode : Option (Option String) := none
  pscCode : Option (Option String) := none
  setAsideType : Option (Option String) := none
  setAsideDescription : Option (Option String) := none
  placeOfPerformance : Option PlaceOfPerformance := none
  contacts : Option (List Contact) := none
  award : Option Award := none
deriving DecidableEq, Repr

/-! ## The environment of external effects, and the event trace -/

/-- External operations the pipeline performs, recorded as a trace.
`directGet` is in the vocabulary so that the spec's direct-fetch download
strategy is statable; the embedding of the source never emits it, because
`main.py` issues no plain HTTP GET against a download URL. `proc oid` marks
the orchestrator entering `process_opportunity` for dedup key `oid`. -/
inductive Ev where
  | searchPage (page : Nat)
  | proc (oid : Option String)
  | detailFetch (oppId : String)
  | manifestFetch (oppId : String)
  | browserNavOpp (oppId : String)
  | browserNavDownload (url : String)
  | directGet (url : String)
deriving DecidableEq, Repr

/-- Outcome oracles for one browser-session download attempt, keyed by the
opportunity id and the download URL.  `newPageOk` is whether
`browser_context.new_page()` succeeds; `gotoOppOk` whether the navigation to
the opportunity page succeeds; `capture` is the captured file's bytes, with
`none` covering a failed download navigation, a missed download event, an
absent temp path, or a failed read. -/
structure BrowserEnv where
  available : Bool
  newPageOk : String → String → Bool
  gotoOppOk : String → String → Bool
  capture : String → String → Option Bytes

/-- The search response: a transport error (an `httpx.HTTPError`), or an HTTP
status with a body that either parses to the results list or fails JSON
decoding (which is not an `httpx.HTTPError`). -/
inductive SearchResp where
  | transportErr
  | status (code : Nat) (body : Except Unit (List Summary))

/-- The detail response, with the same shape as `SearchResp`. -/
inductive DetailResp where
  | transportErr
  | status (code : Nat) (body : Except Unit DetailDoc)

/-- The full environment of external outcomes for one run.  `manifest` is
`none` on any failure of the attachment-manifest fetch (transport error,
non-200 status, or undecodable body — all swallowed by the same handler) and
otherwise the parsed attachment groups.  `storeOk` is whether the key-value
store write for a given (opportunity id, download URL) succeeds.  `directGet`
is what a plain HTTP GET at a URL would return; the source never issues one,
so the pipeline never consults it.  `now` is the wall-clock capture time. -/
structure Env where
  search : Nat → SearchResp
  detail : String → DetailResp
  manifest : String → Option (List (List (Option RawAttachment)))
  browser : BrowserEnv
  storeOk : String → String → Bool
  extractPdf : Bytes → Option String
  directGet : String → Option Bytes
  now : String

/-! ## Attachment acquisition (`get_and_download_attachments`, lines 338-470) -/

/-- Filename sanitization (line 432):
`"".join(c for c in filename if c.isalnum() or c in "._- ")`. -/
def sanitizeFilename (s : String) : String :=
  String.mk (s.data.filter fun c =>
    c.isAlphanum || c = '.' || c = '_' || c = '-' || c = ' ')

/-- The canonical download URL built from a resource id (line 385). -/
def downloadUrlFor (resourceId : String) : String :=
  "https://sam.gov/api/prod/opps/v3/opportunities/resources/files/"
    ++ resourceId ++ "/download"

/-- The key-value-store key (line 433): `f"{opp_id}/{safe_filename}"`. -/
def mkFileKey (oppId sanitizedFilename : String) : String :=
  oppId ++ "/" ++ sanitizedFilename

/-- The skip marker for non-public files (line 400). -/
def nonPublicMsg : String := "Non-public access level"

/-- The failure marker written when no strategy produced bytes (line 460). -/
def downloadBlockedMsg : String :=
  "Download blocked. Use downloadUrl to fetch manually from browser."

/-- Result of handling one manifest entry: the `file_info` appended to
`result["files"]` (or `none` when the entry is excluded entirely), the
events performed, the store writes, and the `result["texts"]` entries. -/
structure EntryResult where
  fileInfo : Option FileInfo
  events : List Ev
  writes : List (String × Bytes)
  texts : List (String × String)
deriving DecidableEq, Repr

/-- The loop body of lines 369-463, for one raw manifest entry.

* a falsy entry (`none`) or one with `deletedFlag == "1"` is skipped;
* an entry with a falsy `resourceId` (absent or empty) is skipped;
* otherwise the download URL is resolved and `file_info` built;
* a non-`public` access level pre-sets the skip marker with no download attempt;
* otherwise one browser-session attempt runs: new page, navigate to the
  opportunity page, then navigate to the download URL capturing the download;
  a non-empty captured payload that the store accepts yields `storageKey` and
  `downloadedSize` (and a text extraction for PDFs when enabled); anything
  else leaves `download_success` false and sets the blocked marker. -/
def handleAttachment (env : Env) (oppId : String) (extractText : Bool) :
    Option RawAttachment → EntryResult
  | none => ⟨none, [], [], []⟩
  | some a =>
    if a.deletedFlag = some "1" then ⟨none, [], [], []⟩
    else
      match a.resourceId with
      | none => ⟨none, [], [], []⟩
      | some rid =>
        if rid = "" then ⟨none, [], [], []⟩
        else
          let filename := a.name.getD "unknown"
          let accessLevel := a.accessLevel.getD "public"
          let url := downloadUrlFor rid
          let fi : FileInfo :=
            { filename := filename, typ := a.mimeType.getD "", size := a.size,
              resourceId := rid, accessLevel := accessLevel,
              postedDate := a.postedDate, downloadUrl := url }
          if accessLevel ≠ "public" then
            ⟨some { fi with downloadError := some nonPublicMsg }, [], [], []⟩
          else
            if env.browser.available then
              if env.browser.newPageOk oppId url then
                if env.browser.gotoOppOk oppId url then
                  match env.browser.capture oppId url with
                  | some content =>
                    if 0 < content.length then
                      if env.storeOk oppId url then
                        let key := mkFileKey oppId (sanitizeFilename filename)
                        let texts :=
                          if extractText ∧ filename.toLower.endsWith ".pdf" then
                            match env.extractPdf content with
                            | some t => if t ≠ "" then [(filename, t.take 50000)] else []
                            | none => []
                          else []
                        ⟨some { fi with storageKey := some key,
                                        downloadedSize := some content.length },
                         [Ev.browserNavOpp oppId, Ev.browserNavDownload url],
                         [(key, content)], texts⟩
                      else
                        ⟨some { fi with downloadError := some downloadBlockedMsg },
                         [Ev.browserNavOpp oppId, Ev.browserNavDownload url], [], []⟩
                    else
                      ⟨some { fi with downloadError := some downloadBlockedMsg },
                       [Ev.browserNavOpp oppId, Ev.browserNavDownload url], [], []⟩
                  | none =>
                    ⟨some { fi with downloadError := some downloadBlockedMsg },
                     [Ev.browserNavOpp oppId, Ev.browserNavDownload url], [], []⟩
                else
                  ⟨some { fi with downloadError := some downloadBlockedMsg },
                   [Ev.browserNavOpp oppId], [], []⟩
              else
                ⟨some { fi with downloadError := some downloadBlockedMsg }, [], [], []⟩
            else
              ⟨some { fi with downloadError := some downloadBlockedMsg }, [], [], []⟩

/-- The aggregate result of `get_and_download_attachments`. -/
structure AttachResult where
  files : List FileInfo
  texts : List (String × String)
  events : List Ev
  writes : List (String × Bytes)
deriving DecidableEq, Repr

/-- Folding `handleAttachment` over the flattened manifest entries, in order. -/
def processAttachments (env : Env) (oppId : String) (extractText : Bool) :
    List (Option RawAttachment) → AttachResult
  | [] => ⟨[], [], [], []⟩
  | a :: rest =>
    let e := handleAttachment env oppId extractText a
    let r := processAttachments env oppId extractText rest
    ⟨e.fileInfo.toList ++ r.files, e.texts ++ r.texts,
     e.events ++ r.events, e.writes ++ r.writes⟩

/-- `get_and_download_attachments` (lines 338-470): fetch the manifest, on any
failure return the empty result; otherwise flatten all attachment groups and
handle each entry. -/
def get_and_download_attachments (env : Env) (oppId : String)
    (extractText : Bool) : AttachResult :=
  match env.manifest oppId with
  | none => ⟨[], [], [Ev.manifestFetch oppId], []⟩
  | some groups =>
    let r := processAttachments env oppId extractText groups.flatten
    ⟨r.files, r.texts, Ev.manifestFetch oppId :: r.events, r.writes⟩

/-! ## Search and detail fetch -/

/-- `search_opportunities`, lines 199-210: any `httpx.HTTPError` — a transport
error, or the `HTTPStatusError` that `raise_for_status` raises on a non-2xx
status — is caught and turned into the empty list.  Only a JSON-decode failure
of a 2xx body (`response.json()` raising, not an `httpx.HTTPError`) escapes,
modelled as `Except.error`. -/
def search_opportunities (resp : SearchResp) : Except Unit (List Summary) :=
  match resp with
  | .transportErr => .ok []
  | .status code body =>
    if 200 ≤ code ∧ code < 300 then
      match body with
      | .ok results => .ok results
      | .error _ => .error ()
    else .ok []

/-- `get_opportunity_details`, lines 323-335: transport errors and non-2xx
statuses are caught (`httpx.HTTPError`) and yield `none`; a 2xx body that
fails JSON decoding raises out of the function (`Except.error`). -/
def get_opportunity_details (env : Env) (oppId : String) :
    Except Unit (Option DetailDoc) :=
  match env.detail oppId with
  | .transportErr => .ok none
  | .status code body =>
    if 200 ≤ code ∧ code < 300 then
      match body with
      | .ok doc => .ok (some doc)
      | .error _ => .error ()
    else .ok none

/-! ## Record assembly (`process_opportunity`, lines 213-320) -/

/-- The summary-derived record (lines 222-255); detail-derived keys absent. -/
def mkBaseRecord (now : String) (opp : Summary) : OppRecord :=
  let oppId := opp.oppId.getD ""
  let org := opp.organizationHierarchy
  { opportunityId := oppId
    solicitationNumber := opp.solicitationNumber
    title := opp.title
    description := (opp.descriptions.head?.map (fun c => c.getD "")).getD ""
    typ := opp.typ >>= TypeObj.value
    typeCode := opp.typ >>= TypeObj.code
    postedDate := opp.publishDate
    modifiedDate := opp.modifiedDate
    responseDeadline := opp.responseDate
    responseTimeZone := opp.responseTimeZone
    isActive := opp.isActive
    isCanceled := opp.isCanceled
    agencyName := org.head? >>= OrgEntry.name
    subAgencyName := org.get? 1 >>= OrgEntry.name
    officeName := org.getLast? >>= OrgEntry.name
    samGovLink := "https://sam.gov/opp/" ++ oppId ++ "/view"
    attachments := []
    attachmentTexts := []
    scrapedAt := now }

/-- The detail-derived enrichment (lines 259-309), applied when the detail
document is present and truthy. -/
def enrichRecord (base : OppRecord) (doc : DetailDoc) : OppRecord :=
  let data2 := doc.data2.getD emptyData2
  let r1 :=
    match data2.naics.head? with
    | some first => { base with naicsCode := some first.code.head? }
    | none => base
  let r2 := { r1 with pscCode := some data2.classificationCode }
  let r3 :=
    match data2.typeOfSetAside with
    | some sa => { r2 with setAsideType := some sa.code,
                           setAsideDescription := some sa.value }
    | none => r2
  let pop := data2.placeOfPerformance.getD
    { city := none, state := none, country := none }
  let popOut : PlaceOfPerformance :=
    { city := pop.city >>= NamedCode.name
      state := pop.state >>= NamedCode.name
      stateCode := pop.state >>= NamedCode.code
      country := pop.country >>= NamedCode.name
      countryCode := pop.country >>= NamedCode.code }
  let r4 := { r3 with placeOfPerformance := some popOut }
  let contactsOut : List Contact :=
    (data2.pointOfContact.filterMap id).map fun c =>
      { name := c.fullName, email := c.email, phone := c.phone,
        fax := c.fax, title := c.title, typ := c.typ }
  let r5 := { r4 with contacts := some contactsOut }
  match data2.award with
  | some aw =>
    let awardOut : Award :=
      { amount := aw.amount
        awardee := aw.awardee >>= AwardeeDoc.name
        awardeeUei := aw.awardee >>= AwardeeDoc.ueiSAM }
    { r5 with award := some awardOut }
  | none => r5

/-- Result of processing one opportunity: `record = none` models an exception
escaping `process_opportunity` (the only escape path under this environment
model is a JSON-decode failure of a 2xx detail body). -/
structure ProcResult where
  record : Option OppRecord
  events : List Ev
  writes : List (String × Bytes)
deriving DecidableEq, Repr

/-- `process_opportunity` (lines 213-320): assemble the summary-derived
record; enrich from the detail document when one is returned; fetch and
download attachments when enabled.  `attachmentTexts` is only overwritten
when text extraction is enabled (line 317). -/
def process_opportunity (env : Env) (downloadAttachments extractText : Bool)
    (opp : Summary) : ProcResult :=
  let oppId := opp.oppId.getD ""
  match get_opportunity_details env oppId with
  | .error _ => { record := none, events := [Ev.detailFetch oppId], writes := [] }
  | .ok details =>
    let rec0 := mkBaseRecord env.now opp
    let rec1 :=
      match details with
      | some doc => enrichRecord rec0 doc
      | none => rec0
    if downloadAttachments then
      let ar := get_and_download_attachments env oppId extractText
      { record := some { rec1 with
          attachments := ar.files
          attachmentTexts := if extractText then ar.texts else [] }
        events := Ev.detailFetch oppId :: ar.events
        writes := ar.writes }
    else
      { record := some rec1, events := [Ev.detailFetch oppId], writes := [] }

/-! ## The orchestrator (`main`, lines 85-141) -/

/-- The run configuration fields that drive the loop. -/
structure RunInput where
  downloadAttachments : Bool
  extractText : Bool
  maxOpportunities : Nat
deriving DecidableEq, Repr

/-- The orchestrator's mutable state: `fetched` is `opportunities_fetched`,
`seen` is `seen_ids` (dedup keys are the raw `_id` values, possibly absent),
`pushed` pairs each pushed record with its dedup key, in push order. -/
structure LoopState where
  fetched : Nat
  seen : List (Option String)
  pushed : List (Option String × OppRecord)
  trace : List Ev
  writes : List (String × Bytes)
deriving DecidableEq, Repr

/-- The per-summary body of the inner loop (lines 118-137), after the budget
check: skip an already-seen id; otherwise mark it seen, process it, and on
success push the record and count it; an exception during processing is
caught and the loop continues. -/
def procStep (env : Env) (inp : RunInput) (st : LoopState) (opp : Summary) :
    LoopState :=
  if opp.oppId ∈ st.seen then st
  else
    let st1 := { st with seen := opp.oppId :: st.seen }
    let pr := process_opportunity env inp.downloadAttachments inp.extractText opp
    let st2 := { st1 with trace := st1.trace ++ Ev.proc opp.oppId :: pr.events }
    match pr.record with
    | none => st2
    | some rec =>
      { st2 with pushed := st2.pushed ++ [(opp.oppId, rec)]
                 fetched := st2.fetched + 1
                 writes := st2.writes ++ pr.writes }

/-- The inner `for` loop over one page (lines 114-137): break as soon as the
budget is reached, else run `procStep` on each summary in order. -/
def processPage (env : Env) (inp : RunInput) :
    LoopState → List Summary → LoopState
  | st, [] => st
  | st, opp :: rest =>
    if inp.maxOpportunities ≤ st.fetched then st
    else processPage env inp (procStep env inp st opp) rest

/-- The outer `while` loop (lines 94-140), with explicit fuel bounding the
number of page iterations.  An empty page breaks the loop; a JSON-decode
failure of the search response propagates and ends the run, leaving the state
accumulated so far. -/
def runPages (env : Env) (inp : RunInput) :
    Nat → Nat → LoopState → LoopState
  | 0, _, st => st
  | fuel + 1, page, st =>
    if st.fetched < inp.maxOpportunities then
      let st := { st with trace := st.trace ++ [Ev.searchPage page] }
      match search_opportunities (env.search page) with
      | .error _ => st
      | .ok [] => st
      | .ok (opp :: rest) =>
        runPages env inp fuel (page + 1) (processPage env inp st (opp :: rest))
    else st

/-- The initial orchestrator state (lines 85-86, 91). -/
def initState : LoopState :=
  { fetched := 0, seen := [], pushed := [], trace := [], writes := [] }

/-- One full run of the scraper, fuel-bounded in pages. -/
def runScraper (env : Env) (inp : RunInput) (fuel : Nat) : LoopState :=
  runPages env inp fuel 0 initState

/-! ## Derived notions used in the statements -/

/-- The browser-session strategy yields a non-empty payload for this
(opportunity, download URL) pair: the context exists, a page can be opened,
the opportunity-page navigation succeeds, and the captured download has at
least one byte. -/
def strategySucceeds (env : Env) (oppId url : String) : Bool :=
  env.browser.available && env.browser.newPageOk oppId url &&
  env.browser.gotoOppOk oppId url &&
  (match env.browser.capture oppId url with
   | some content => decide (0 < content.length)
   | none => false)

/-- Recognizer for direct-HTTP-GET events in a trace. -/
def isDirectGetEv : Ev → Bool
  | Ev.directGet _ => true
  | _ => false

/-- The dedup keys of the pushed records, in push order. -/
def pushedIds (st : LoopState) : List (Option String) :=
  st.pushed.map Prod.fst

/-- The loop invariant: the emitted counter equals the number of pushed
records, every pushed dedup key is in the seen set, and the pushed dedup
keys are pairwise distinct. -/
def StateInv (st : LoopState) : Prop :=
  st.fetched = st.pushed.length ∧
  (∀ i ∈ pushedIds st, i ∈ st.seen) ∧
  (pushedIds st).Nodup

/-- The trace invariant: a `proc` marker appears only for seen ids, and at
most once per id. -/
def ProcInv (st : LoopState) : Prop :=
  ∀ oid, (Ev.proc oid ∈ st.trace → oid ∈ st.seen) ∧
    st.trace.count (Ev.proc oid) ≤ 1

/-! ## Concrete fixtures for counterexamples and witnesses -/

/-- A public, non-deleted manifest entry with a resolvable resource id. -/
def pubAttachment : RawAttachment :=
  { deletedFlag := none, resourceId := some "res-1", name := some "doc.pdf",
    mimeType := some "application/pdf", size := 4,
    accessLevel := some "public", postedDate := none }

/-- The download URL `pubAttachment` resolves to. -/
def pubUrl : String := downloadUrlFor "res-1"

/-- An environment in which a plain HTTP GET at any URL would return a
success-status, non-empty body, while the browser-session capture fails. -/
def envDirectWouldWin : Env :=
  { search := fun _ => SearchResp.status 200 (Except.ok [])
    detail := fun _ => DetailResp.transportErr
    manifest := fun _ => some [[some pubAttachment]]
    browser := { available := true, newPageOk := fun _ _ => true,
                 gotoOppOk := fun _ _ => true, capture := fun _ _ => none }
    storeOk := fun _ _ => true
    extractPdf := fun _ => none
    directGet := fun _ => some [55]
    now := "2026-01-01T00:00:00+00:00" }

/-- An environment with no browser context at all. -/
def envNoBrowser : Env :=
  { envDirectWouldWin with
    browser := { available := false, newPageOk := fun _ _ => false,
                 gotoOppOk := fun _ _ => false, capture := fun _ _ => none } }

/-- An environment where the browser capture succeeds with payload `[7, 8]`. -/
def envBrowserWins : Env :=
  { envDirectWouldWin with
    browser := { available := true, newPageOk := fun _ _ => true,
                 gotoOppOk := fun _ _ => true, capture := fun _ _ => some [7, 8] } }

/-- A plain summary with id `opp-1`. -/
def sampleSummary : Summary :=
  { oppId := some "opp-1", solicitationNumber := some "S-1", title := some "T",
    typ := some { value := some "Solicitation", code := some "o" },
    publishDate := some "2026-01-01", modifiedDate := some "2026-01-02",
    responseDate := none, responseTimeZone := none,
    isActive := some true, isCanceled := some false,
    organizationHierarchy := [{ name := some "Agency" }, { name := some "Office" }],
    descriptions := [some "desc"] }

/-- An environment whose detail endpoint answers 500 for every id. -/
def envDetail500 : Env :=
  { envBrowserWins with
    detail := fun _ => DetailResp.status 500 (Except.ok { data2 := none }) }

/-- An environment whose detail endpoint answers 200 with an undecodable
body, making `process_opportunity` raise. -/
def envDetailCrash : Env :=
  { envBrowserWins with
    detail := fun _ => DetailResp.status 200 (Except.error ()) }

/-- A loop state whose budget is already exhausted (for `maxOpportunities = 2`). -/
def stFull : LoopState := { initState with fetched := 2 }

/-- A loop state that has already seen the id `opp-1`. -/
def stSeen : LoopState := { initState with seen := [some "opp-1"] }

/-! ## Claim C2 — search error handling -/

/-- Claim C2 counterexample: `search_opportunities` swallows a transport or
HTTP failure (`httpx.HTTPError`) and returns the empty list, the very value
returned when the upstream reports zero results, so the caller cannot
distinguish the two outcomes and no `UpstreamError` is raised. -/
theorem search_failure_indistinguishable_counterexample :
    search_opportunities SearchResp.transportErr = Except.ok [] ∧
    search_opportunities SearchResp.transportErr ≠ Except.error () ∧
    search_opportunities (SearchResp.status 500 (Except.ok [])) = Except.ok [] ∧
    search_opportunities (SearchResp.status 200 (Except.ok [])) = Except.ok [] ∧
    search_opportunities SearchResp.transportErr =
      search_opportunities (SearchResp.status 200 (Except.ok [])) :=
  ⟨rfl, fun h => Except.noConfusion h, rfl, rfl, rfl⟩

/-- Claim C2 (amended): the search operation returns an empty sequence — not
an error — both when the network call or HTTP request fails (transport error
or non-2xx) and when the upstream reports zero results, so the two outcomes
are not distinguishable to the caller; on a 2xx response the parsed results
are returned as-is. -/
theorem search_error_swallowed (code : Nat) (results : List Summary)
    (hcode : ¬(200 ≤ code ∧ code < 300)) :
    search_opportunities SearchResp.transportErr = Except.ok [] ∧
    search_opportunities (SearchResp.status code (Except.ok results)) = Except.ok [] ∧
    search_opportunities (SearchResp.status 200 (Except.ok results)) = Except.ok results := by
  refine ⟨rfl, ?_, ?_⟩
  · simp [search_opportunities, hcode]
  · simp [search_opportunities]

/-- Witness for `search_error_swallowed` at status 500. -/
theorem search_error_swallowed_witness :
    search_opportunities SearchResp.transportErr = Except.ok [] ∧
    search_opportunities (SearchResp.status 500 (Except.ok [])) = Except.ok [] ∧
    search_opportunities (SearchResp.status 200 (Except.ok [])) = Except.ok [] :=
  search_error_swallowed 500 [] (by decide)

/-! ## Claim C5 — non-public entries are policy-skipped, never downloaded -/

/-- Claim C5: a non-deleted manifest entry with a resolvable resource id whose
access level is present and not exactly the string `public` is retained in the
output with its outcome pre-set to the policy-skip marker, no download attempt
is made for it (its event trace and store writes are empty), and the marker
differs from the download-failure marker. -/
theorem nonpublic_policy_skip (env : Env) (oppId : String) (ex : Bool)
    (a : RawAttachment) (rid lvl : String)
    (hdel : a.deletedFlag ≠ some "1") (hrid : a.resourceId = some rid)
    (hrne : rid ≠ "") (hlvl : a.accessLevel = some lvl)
    (hpub : lvl ≠ "public") :
    handleAttachment env oppId ex (some a) =
      ⟨some { filename := a.name.getD "unknown", typ := a.mimeType.getD "",
              size := a.size, resourceId := rid, accessLevel := lvl,
              postedDate := a.postedDate, downloadUrl := downloadUrlFor rid,
              downloadError := some nonPublicMsg,
              storageKey := none, downloadedSize := none }, [], [], []⟩ ∧
    nonPublicMsg ≠ downloadBlockedMsg := by
  constructor
  · simp [handleAttachment, hdel, hrid, hrne, hlvl, hpub]
  · decide

/-- Witness for `nonpublic_policy_skip`. -/
theorem nonpublic_policy_skip_witness :
    handleAttachment envBrowserWins "opp-1" false
        (some { pubAttachment with accessLevel := some "org" }) =
      ⟨some { filename := "doc.pdf", typ := "application/pdf",
              size := 4, resourceId := "res-1", accessLevel := "org",
              postedDate := none, downloadUrl := downloadUrlFor "res-1",
              downloadError := some nonPublicMsg,
              storageKey := none, downloadedSize := none }, [], [], []⟩ ∧
    nonPublicMsg ≠ downloadBlockedMsg :=
  nonpublic_policy_skip envBrowserWins "opp-1" false
    { pubAttachment with accessLevel := some "org" } "res-1" "org"
    (by decide) (by decide) (by decide) (by decide) (by decide)

/-! ## Claim C8 — deleted or unresolvable entries are excluded entirely -/

/-- Claim C8: a manifest entry whose deletion flag is set, or lacking a
resolvable resource identifier, is excluded from the attachment list entirely:
it contributes no file entry (not even a skip entry), no events, no writes and
no texts, and the surrounding fold is unchanged by its presence. -/
theorem deleted_or_unresolvable_excluded (env : Env) (oppId : String)
    (ex : Bool) (a : RawAttachment)
    (h : a.deletedFlag = some "1" ∨ a.resourceId = none ∨ a.resourceId = some "") :
    handleAttachment env oppId ex (some a) = ⟨none, [], [], []⟩ ∧
    ∀ rest, processAttachments env oppId ex (some a :: rest) =
      processAttachments env oppId ex rest := by
  have hskip : handleAttachment env oppId ex (some a) = ⟨none, [], [], []⟩ := by
    rcases h with h | h | h
    · simp [handleAttachment, h]
    · simp [handleAttachment, h]
    · simp [handleAttachment, h]
  refine ⟨hskip, fun rest => ?_⟩
  simp [processAttachments, hskip]

/-! ## Claim C6 — failed acquisitions keep the manual-fallback URL -/

/-- The resolved download URL is never empty. -/
theorem downloadUrlFor_ne_empty (rid : String) : downloadUrlFor rid ≠ "" := by
  intro h
  have h2 := congrArg String.length h
  simp [downloadUrlFor, String.length_append] at h2
  have h3 : 0 <
      ("https://sam.gov/api/prod/opps/v3/opportunities/resources/files/" :
        String).length := by decide
  omega

/-- On a failed browser-session attempt the per-entry result is the blocked
descriptor, with no store write; only the event prefix varies with where the
attempt failed. -/
theorem handleAttachment_failed_eq (env : Env) (oppId : String) (ex : Bool)
    (a : RawAttachment) (rid : String)
    (hdel : a.deletedFlag ≠ some "1") (hrid : a.resourceId = some rid)
    (hrne : rid ≠ "") (hpub : a.accessLevel.getD "public" = "public")
    (hfail : strategySucceeds env oppId (downloadUrlFor rid) = false) :
    handleAttachment env oppId ex (some a) = ⟨some
      { filename := a.name.getD "unknown", typ := a.mimeType.getD "",
        size := a.size, resourceId := rid, accessLevel := "public",
        postedDate := a.postedDate, downloadUrl := downloadUrlFor rid,
        downloadError := some downloadBlockedMsg,
        storageKey := none, downloadedSize := none },
      (handleAttachment env oppId ex (some a)).events, [], []⟩ := by
  cases hav : env.browser.available with
  | false => simp [handleAttachment, hdel, hrid, hrne, hpub, hav]
  | true =>
    cases hnp : env.browser.newPageOk oppId (downloadUrlFor rid) with
    | false => simp [handleAttachment, hdel, hrid, hrne, hpub, hav, hnp]
    | true =>
      cases hgoto : env.browser.gotoOppOk oppId (downloadUrlFor rid) with
      | false => simp [handleAttachment, hdel, hrid, hrne, hpub, hav, hnp, hgoto]
      | true =>
        cases hc : env.browser.capture oppId (downloadUrlFor rid) with
        | none => simp [handleAttachment, hdel, hrid, hrne, hpub, hav, hnp, hgoto, hc]
        | some content =>
          simp [strategySucceeds, hav, hnp, hgoto, hc] at hfail
          simp [handleAttachment, hdel, hrid, hrne, hpub, hav, hnp, hgoto, hc, hfail]

/-- Claim C6: when the download strategy fails on a public, surviving manifest
entry, the resulting descriptor carries the canonical download URL (which is
non-empty) and a non-empty `downloadError`, contains no `storageKey` (and no
`downloadedSize`), and nothing is written to the store. -/
theorem failed_acquisition_keeps_manual_url (env : Env) (oppId : String)
    (ex : Bool) (a : RawAttachment) (rid : String)
    (hdel : a.deletedFlag ≠ some "1") (hrid : a.resourceId = some rid)
    (hrne : rid ≠ "") (hpub : a.accessLevel.getD "public" = "public")
    (hfail : strategySucceeds env oppId (downloadUrlFor rid) = false) :
    (handleAttachment env oppId ex (some a)).fileInfo = some
      { filename := a.name.getD "unknown", typ := a.mimeType.getD "",
        size := a.size, resourceId := rid, accessLevel := "public",
        postedDate := a.postedDate, downloadUrl := downloadUrlFor rid,
        downloadError := some downloadBlockedMsg,
        storageKey := none, downloadedSize := none } ∧
    downloadUrlFor rid ≠ "" ∧ downloadBlockedMsg ≠ "" ∧
    (handleAttachment env oppId ex (some a)).writes = [] := by
  have h := handleAttachment_failed_eq env oppId ex a rid hdel hrid hrne hpub hfail
  exact ⟨congrArg EntryResult.fileInfo h, downloadUrlFor_ne_empty rid,
    by decide, congrArg EntryResult.writes h⟩

/-- Witness for `failed_acquisition_keeps_manual_url`: no browser context. -/
theorem failed_acquisition_keeps_manual_url_witness :
    (handleAttachment envNoBrowser "opp-1" false (some pubAttachment)).fileInfo = some
      { filename := "doc.pdf", typ := "application/pdf",
        size := 4, resourceId := "res-1", accessLevel := "public",
        postedDate := none, downloadUrl := downloadUrlFor "res-1",
        downloadError := some downloadBlockedMsg,
        storageKey := none, downloadedSize := none } ∧
    downloadUrlFor "res-1" ≠ "" ∧ downloadBlockedMsg ≠ "" ∧
    (handleAttachment envNoBrowser "opp-1" false (some pubAttachment)).writes = [] :=
  failed_acquisition_keeps_manual_url envNoBrowser "opp-1" false pubAttachment
    "res-1" (by decide) (by decide) (by decide) (by decide) (by decide)

/-! ## Claim C7 — storage key construction and size bookkeeping -/

/-- Claim C7: a successful acquisition stores the payload under the key
`opportunityId ++ "/" ++ sanitizedFilename`, records that key as `storageKey`
and the payload's byte length as `downloadedSize`; the key is a pure function
of the opportunity id and the sanitized filename, and sanitization keeps
exactly the characters that are alphanumeric or in `"._- "`. -/
theorem successful_acquisition_storage_key (env : Env) (oppId : String)
    (ex : Bool) (a : RawAttachment) (rid : String) (content : Bytes)
    (hdel : a.deletedFlag ≠ some "1") (hrid : a.resourceId = some rid)
    (hrne : rid ≠ "") (hpub : a.accessLevel.getD "public" = "public")
    (hav : env.browser.available = true)
    (hnp : env.browser.newPageOk oppId (downloadUrlFor rid) = true)
    (hgoto : env.browser.gotoOppOk oppId (downloadUrlFor rid) = true)
    (hcap : env.browser.capture oppId (downloadUrlFor rid) = some content)
    (hlen : 0 < content.length)
    (hstore : env.storeOk oppId (downloadUrlFor rid) = true) :
    (handleAttachment env oppId ex (some a)).fileInfo = some
      { filename := a.name.getD "unknown", typ := a.mimeType.getD "",
        size := a.size, resourceId := rid, accessLevel := "public",
        postedDate := a.postedDate, downloadUrl := downloadUrlFor rid,
        downloadError := none,
        storageKey := some (mkFileKey oppId (sanitizeFilename (a.name.getD "unknown"))),
        downloadedSize := some content.length } ∧
    (handleAttachment env oppId ex (some a)).writes =
      [(mkFileKey oppId (sanitizeFilename (a.name.getD "unknown")), content)] ∧
    mkFileKey oppId (sanitizeFilename (a.name.getD "unknown")) =
      oppId ++ "/" ++ sanitizeFilename (a.name.getD "unknown") ∧
    (∀ c : Char, c ∈ (sanitizeFilename (a.name.getD "unknown")).data ↔
      c ∈ (a.name.getD "unknown").data ∧
        (c.isAlphanum || c = '.' || c = '_' || c = '-' || c = ' ') = true) := by
  refine ⟨?_, ?_, rfl, ?_⟩
  · simp [handleAttachment, hdel, hrid, hrne, hpub, hav, hnp, hgoto, hcap, hlen, hstore]
  · simp [handleAttachment, hdel, hrid, hrne, hpub, hav, hnp, hgoto, hcap, hlen, hstore]
  · intro c
    simp [sanitizeFilename, List.mem_filter]

/-- Witness for `successful_acquisition_storage_key`. -/
theorem successful_acquisition_storage_key_witness :
    (handleAttachment envBrowserWins "opp-1" false (some pubAttachment)).fileInfo = some
      { filename := "doc.pdf", typ := "application/pdf",
        size := 4, resourceId := "res-1", accessLevel := "public",
        postedDate := none, downloadUrl := downloadUrlFor "res-1",
        downloadError := none,
        storageKey := some (mkFileKey "opp-1" (sanitizeFilename "doc.pdf")),
        downloadedSize := some ([7, 8] : Bytes).length } ∧
    (handleAttachment envBrowserWins "opp-1" false (some pubAttachment)).writes =
      [(mkFileKey "opp-1" (sanitizeFilename "doc.pdf"), ([7, 8] : Bytes))] ∧
    mkFileKey "opp-1" (sanitizeFilename "doc.pdf") =
      "opp-1" ++ "/" ++ sanitizeFilename "doc.pdf" ∧
    (∀ c : Char, c ∈ (sanitizeFilename "doc.pdf").data ↔
      c ∈ ("doc.pdf" : String).data ∧
        (c.isAlphanum || c = '.' || c = '_' || c = '-' || c = ' ') = true) :=
  successful_acquisition_storage_key envBrowserWins "opp-1" false pubAttachment
    "res-1" [7, 8] (by decide) (by decide) (by decide) (by decide)
    (by decide) (by decide) (by decide) (by decide) (by decide) (by decide)

/-! ## Claim C1 — the download strategy order -/

/-- Claim C1 counterexample: in an environment where a plain HTTP GET at the
resolved download URL would return a success-status, non-empty body, the
acquisition of a public attachment still fails when the browser capture
fails: the code never attempts a direct fetch (no `directGet` event appears;
the only events are the browser-session navigations), so the first-listed
strategy's success does not produce a success outcome. -/
theorem direct_fetch_never_attempted_counterexample :
    envDirectWouldWin.directGet pubUrl = some [55] ∧
    handleAttachment envDirectWouldWin "opp-1" false (some pubAttachment) =
      ⟨some { filename := "doc.pdf", typ := "application/pdf", size := 4,
              resourceId := "res-1", accessLevel := "public", postedDate := none,
              downloadUrl := pubUrl, downloadError := some downloadBlockedMsg,
              storageKey := none, downloadedSize := none },
        [Ev.browserNavOpp "opp-1", Ev.browserNavDownload pubUrl], [], []⟩ := by
  exact ⟨rfl, by decide⟩

/-- Claim C1 (amended): the browser-session strategy is the only download
strategy: for every public, surviving manifest entry the acquisition issues
no direct HTTP GET, its events are (a prefix of) the browser-session
navigations — the opportunity page first, then the download URL — and the
outcome records a `storageKey` exactly when the browser capture produced a
non-empty payload and the store write succeeded. -/
theorem browser_only_strategy (env : Env) (oppId : String) (ex : Bool)
    (a : RawAttachment) (rid : String)
    (hdel : a.deletedFlag ≠ some "1") (hrid : a.resourceId = some rid)
    (hrne : rid ≠ "") (hpub : a.accessLevel.getD "public" = "public") :
    ((handleAttachment env oppId ex (some a)).events.all
      fun e => !isDirectGetEv e) = true ∧
    ((handleAttachment env oppId ex (some a)).events = [] ∨
     (handleAttachment env oppId ex (some a)).events = [Ev.browserNavOpp oppId] ∨
     (handleAttachment env oppId ex (some a)).events =
       [Ev.browserNavOpp oppId, Ev.browserNavDownload (downloadUrlFor rid)]) ∧
    (((handleAttachment env oppId ex (some a)).fileInfo.bind
        FileInfo.storageKey).isSome = true ↔
      (strategySucceeds env oppId (downloadUrlFor rid) = true ∧
       env.storeOk oppId (downloadUrlFor rid) = true)) := by
  cases hav : env.browser.available with
  | false =>
    simp [handleAttachment, hdel, hrid, hrne, hpub, hav, strategySucceeds]
  | true =>
    cases hnp : env.browser.newPageOk oppId (downloadUrlFor rid) with
    | false =>
      simp [handleAttachment, hdel, hrid, hrne, hpub, hav, hnp, strategySucceeds]
    | true =>
      cases hgoto : env.browser.gotoOppOk oppId (downloadUrlFor rid) with
      | false =>
        simp [handleAttachment, hdel, hrid, hrne, hpub, hav, hnp, hgoto,
          strategySucceeds, isDirectGetEv]
      | true =>
        cases hc : env.browser.capture oppId (downloadUrlFor rid) with
        | none =>
          simp [handleAttachment, hdel, hrid, hrne, hpub, hav, hnp, hgoto, hc,
            strategySucceeds, isDirectGetEv]
        | some content =>
          by_cases hlen : 0 < content.length
          · cases hstore : env.storeOk oppId (downloadUrlFor rid) with
            | false =>
              simp [handleAttachment, hdel, hrid, hrne, hpub, hav, hnp, hgoto,
                hc, hlen, hstore, strategySucceeds, isDirectGetEv]
            | true =>
              simp [handleAttachment, hdel, hrid, hrne, hpub, hav, hnp, hgoto,
                hc, hlen, hstore, strategySucceeds, isDirectGetEv]
          · simp [handleAttachment, hdel, hrid, hrne, hpub, hav, hnp, hgoto,
              hc, hlen, strategySucceeds, isDirectGetEv]

/-- Witness for `browser_only_strategy`. -/
theorem browser_only_strategy_witness :
    ((handleAttachment envBrowserWins "opp-1" false (some pubAttachment)).events.all
      fun e => !isDirectGetEv e) = true ∧
    ((handleAttachment envBrowserWins "opp-1" false (some pubAttachment)).events = [] ∨
     (handleAttachment envBrowserWins "opp-1" false (some pubAttachment)).events =
       [Ev.browserNavOpp "opp-1"] ∨
     (handleAttachment envBrowserWins "opp-1" false (some pubAttachment)).events =
       [Ev.browserNavOpp "opp-1", Ev.browserNavDownload (downloadUrlFor "res-1")]) ∧
    (((handleAttachment envBrowserWins "opp-1" false (some pubAttachment)).fileInfo.bind
        FileInfo.storageKey).isSome = true ↔
      (strategySucceeds envBrowserWins "opp-1" (downloadUrlFor "res-1") = true ∧
       envBrowserWins.storeOk "opp-1" (downloadUrlFor "res-1") = true)) :=
  browser_only_strategy envBrowserWins "opp-1" false pubAttachment "res-1"
    (by decide) (by decide) (by decide) (by decide)

/-- Witness for `deleted_or_unresolvable_excluded` on a deleted entry. -/
theorem deleted_or_unresolvable_excluded_witness :
    handleAttachment envBrowserWins "opp-1" false
        (some { pubAttachment with deletedFlag := some "1" }) = ⟨none, [], [], []⟩ ∧
    ∀ rest, processAttachments envBrowserWins "opp-1" false
        (some { pubAttachment with deletedFlag := some "1" } :: rest) =
      processAttachments envBrowserWins "opp-1" false rest :=
  deleted_or_unresolvable_excluded envBrowserWins "opp-1" false
    { pubAttachment with deletedFlag := some "1" } (Or.inl (by decide))

/-! ## Orchestrator-loop lemmas shared by the run-level claims -/

/-- A `procStep` on an already-seen dedup key is the identity: the duplicate
is dropped before any enrichment work (no events, no fetches, no push). -/
theorem procStep_skip (env : Env) (inp : RunInput) (st : LoopState)
    (opp : Summary) (h : opp.oppId ∈ st.seen) : procStep env inp st opp = st := by
  simp [procStep, h]

/-- The inner loop breaks immediately once the budget is reached. -/
theorem processPage_stop (env : Env) (inp : RunInput) (st : LoopState)
    (l : List Summary) (h : inp.maxOpportunities ≤ st.fetched) :
    processPage env inp st l = st := by
  cases l with
  | nil => rfl
  | cons o r => simp [processPage, h]

/-- The outer loop requests no further page once the budget is reached. -/
theorem runPages_stop (env : Env) (inp : RunInput) (fuel page : Nat)
    (st : LoopState) (h : inp.maxOpportunities ≤ st.fetched) :
    runPages env inp fuel page st = st := by
  cases fuel with
  | zero => rfl
  | succ n => simp [runPages, Nat.not_lt.mpr h]

/-- A page whose head summary has an already-seen id processes like the page
without that summary. -/
theorem processPage_skip (env : Env) (inp : RunInput) (st : LoopState)
    (opp : Summary) (rest : List Summary) (h : opp.oppId ∈ st.seen) :
    processPage env inp st (opp :: rest) = processPage env inp st rest := by
  by_cases h2 : inp.maxOpportunities ≤ st.fetched
  · rw [processPage_stop env inp st _ h2, processPage_stop env inp st rest h2]
  · simp only [processPage, if_neg h2, procStep_skip env inp st opp h]

theorem stateInv_init : StateInv initState := by
  simp [StateInv, initState, pushedIds]

theorem procStep_inv (env : Env) (inp : RunInput) (st : LoopState)
    (opp : Summary) (h : StateInv st) : StateInv (procStep env inp st opp) := by
  by_cases hseen : opp.oppId ∈ st.seen
  · rw [procStep_skip env inp st opp hseen]; exact h
  · obtain ⟨h1, h2, h3⟩ := h
    unfold procStep
    rw [if_neg hseen]
    dsimp only
    split
    · exact ⟨h1, fun i hi => List.mem_cons_of_mem _ (h2 i hi), h3⟩
    · refine ⟨by simp [h1], ?_, ?_⟩
      · intro i hi
        simp only [pushedIds, List.map_append] at hi
        rcases List.mem_append.mp hi with hi | hi
        · exact List.mem_cons_of_mem _ (h2 i hi)
        · simp only [List.map_cons, List.map_nil, List.mem_singleton] at hi
          subst hi
          exact List.mem_cons_self _ _
      · simp only [pushedIds, List.map_append, List.map_cons, List.map_nil]
        rw [List.nodup_append]
        refine ⟨h3, List.nodup_singleton _, ?_⟩
        intro i hi hmem
        simp only [List.mem_singleton] at hmem
        subst hmem
        exact hseen (h2 _ hi)

theorem processPage_inv (env : Env) (inp : RunInput) :
    ∀ (l : List Summary) (st : LoopState), StateInv st →
      StateInv (processPage env inp st l)
  | [], _, h => h
  | o :: r, st, h => by
    by_cases h2 : inp.maxOpportunities ≤ st.fetched
    · rw [processPage_stop env inp st _ h2]; exact h
    · simp only [processPage, if_neg h2]
      exact processPage_inv env inp r _ (procStep_inv env inp st o h)

theorem runPages_inv (env : Env) (inp : RunInput) :
    ∀ (fuel page : Nat) (st : LoopState), StateInv st →
      StateInv (runPages env inp fuel page st)
  | 0, _, _, h => h
  | n + 1, page, st, h => by
    unfold runPages
    by_cases hc : st.fetched < inp.maxOpportunities
    · rw [if_pos hc]
      have h' : StateInv { st with trace := st.trace ++ [Ev.searchPage page] } := h
      split
      · exact h'
      · exact h'
      · exact runPages_inv env inp n (page + 1) _ (processPage_inv env inp _ _ h')
    · rw [if_neg hc]; exact h

/-- One step raises the emitted counter by at most one. -/
theorem procStep_fetched_le (env : Env) (inp : RunInput) (st : LoopState)
    (opp : Summary) : (procStep env inp st opp).fetched ≤ st.fetched + 1 := by
  unfold procStep
  split
  · exact Nat.le_succ _
  · dsimp only
    split
    · exact Nat.le_succ _
    · exact Nat.le_refl _

theorem processPage_fetched_le (env : Env) (inp : RunInput) :
    ∀ (l : List Summary) (st : LoopState),
      st.fetched ≤ inp.maxOpportunities →
      (processPage env inp st l).fetched ≤ inp.maxOpportunities
  | [], _, h => h
  | o :: r, st, h => by
    by_cases h2 : inp.maxOpportunities ≤ st.fetched
    · rw [processPage_stop env inp st _ h2]; exact h
    · simp only [processPage, if_neg h2]
      refine processPage_fetched_le env inp r _ ?_
      have := procStep_fetched_le env inp st o
      omega

theorem runPages_fetched_le (env : Env) (inp : RunInput) :
    ∀ (fuel page : Nat) (st : LoopState),
      st.fetched ≤ inp.maxOpportunities →
      (runPages env inp fuel page st).fetched ≤ inp.maxOpportunities
  | 0, _, _, h => h
  | n + 1, page, st, h => by
    unfold runPages
    by_cases hc : st.fetched < inp.maxOpportunities
    · rw [if_pos hc]
      have h' : ({ st with trace := st.trace ++ [Ev.searchPage page] } :
          LoopState).fetched ≤ inp.maxOpportunities := h
      split
      · exact h'
      · exact h'
      · refine runPages_fetched_le env inp n (page + 1) _ ?_
        exact processPage_fetched_le env inp _ _ h'
    · rw [if_neg hc]; exact h

/-! ## Claim C3 — the record budget is never exceeded -/

/-- Claim C3: for every environment, configuration and page bound, the number
of records pushed to the sink never exceeds `maxOpportunities`; once the
budget is reached the orchestrator requests no further page (`runPages` is
the identity) and breaks out of a page immediately (`processPage` is the
identity). -/
theorem sink_pushes_bounded (env : Env) (inp : RunInput) :
    (∀ fuel, (runScraper env inp fuel).pushed.length ≤ inp.maxOpportunities) ∧
    (∀ fuel page st, inp.maxOpportunities ≤ st.fetched →
        runPages env inp fuel page st = st) ∧
    (∀ st l, inp.maxOpportunities ≤ st.fetched →
        processPage env inp st l = st) := by
  refine ⟨fun fuel => ?_,
    fun fuel page st h => runPages_stop env inp fuel page st h,
    fun st l h => processPage_stop env inp st l h⟩
  have hinv := runPages_inv env inp fuel 0 initState stateInv_init
  have hle := runPages_fetched_le env inp fuel 0 initState (by simp [initState])
  obtain ⟨h1, -, -⟩ := hinv
  rw [runScraper] at *
  omega

/-- Witness for `sink_pushes_bounded` on a concrete environment, budget and
state, with the budget-exhausted hypotheses discharged by evaluation. -/
theorem sink_pushes_bounded_witness :
    (runScraper envBrowserWins ⟨true, false, 2⟩ 3).pushed.length ≤ 2 ∧
    runPages envBrowserWins ⟨true, false, 2⟩ 3 0 stFull = stFull ∧
    processPage envBrowserWins ⟨true, false, 2⟩ stFull [sampleSummary] = stFull :=
  ⟨(sink_pushes_bounded envBrowserWins ⟨true, false, 2⟩).1 3,
   (sink_pushes_bounded envBrowserWins ⟨true, false, 2⟩).2.1 3 0 stFull (by decide),
   (sink_pushes_bounded envBrowserWins ⟨true, false, 2⟩).2.2 stFull
     [sampleSummary] (by decide)⟩

/-! ## Claim C4 — the dedup invariant -/

/-- Claim C4: within a single run no two pushed records share the same source
identifier (the raw `_id` dedup key), and a summary whose identifier is
already in the dedup set is dropped before any enrichment work — `procStep`
is the identity on it, and the page processes as if it were absent. -/
theorem no_duplicate_ids_pushed (env : Env) (inp : RunInput) :
    (∀ fuel, ((runScraper env inp fuel).pushed.map Prod.fst).Nodup) ∧
    (∀ st opp, opp.oppId ∈ st.seen → procStep env inp st opp = st) ∧
    (∀ st opp rest, opp.oppId ∈ st.seen →
        processPage env inp st (opp :: rest) = processPage env inp st rest) := by
  refine ⟨fun fuel => ?_,
    fun st opp h => procStep_skip env inp st opp h,
    fun st opp rest h => processPage_skip env inp st opp rest h⟩
  have hinv := runPages_inv env inp fuel 0 initState stateInv_init
  exact hinv.2.2

/-- Witness for `no_duplicate_ids_pushed`: a duplicate of the already-seen id
`opp-1` is dropped with no enrichment, and the run's pushed ids stay distinct. -/
theorem no_duplicate_ids_pushed_witness :
    ((runScraper envBrowserWins ⟨true, false, 2⟩ 3).pushed.map Prod.fst).Nodup ∧
    procStep envBrowserWins ⟨true, false, 2⟩ stSeen sampleSummary = stSeen ∧
    processPage envBrowserWins ⟨true, false, 2⟩ stSeen [sampleSummary] =
      processPage envBrowserWins ⟨true, false, 2⟩ stSeen [] :=
  ⟨(no_duplicate_ids_pushed envBrowserWins ⟨true, false, 2⟩).1 3,
   (no_duplicate_ids_pushed envBrowserWins ⟨true, false, 2⟩).2.1 stSeen
     sampleSummary (by decide),
   (no_duplicate_ids_pushed envBrowserWins ⟨true, false, 2⟩).2.2 stSeen
     sampleSummary [] (by decide)⟩

/-! ## Claim C9 — detail-fetch failure is non-fatal -/

/-- Claim C9: on any non-2xx detail response (and on any transport failure)
`get_opportunity_details` returns `Except.ok none` — absence, not an error —
and the record is still assembled from summary data with every detail-derived
field absent, and is pushed by the orchestrator step (so a failed detail
fetch never aborts the run). -/
theorem detail_failure_nonfatal (env : Env) (inp : RunInput) (opp : Summary)
    (code : Nat) (body : Except Unit DetailDoc)
    (hcode : ¬(200 ≤ code ∧ code < 300))
    (hdet : env.detail (opp.oppId.getD "") = DetailResp.status code body) :
    get_opportunity_details env (opp.oppId.getD "") = Except.ok none ∧
    (∀ oid, env.detail oid = DetailResp.transportErr →
        get_opportunity_details env oid = Except.ok none) ∧
    ∃ r, (process_opportunity env inp.downloadAttachments
            inp.extractText opp).record = some r ∧
      r.naicsCode = none ∧ r.pscCode = none ∧ r.setAsideType = none ∧
      r.setAsideDescription = none ∧ r.placeOfPerformance = none ∧
      r.contacts = none ∧ r.award = none ∧
      ∀ st : LoopState, opp.oppId ∉ st.seen →
        (procStep env inp st opp).pushed = st.pushed ++ [(opp.oppId, r)] := by
  have hfetch : get_opportunity_details env (opp.oppId.getD "") = Except.ok none := by
    simp [get_opportunity_details, hdet, hcode]
  refine ⟨hfetch, fun oid h => by simp [get_opportunity_details, h], ?_⟩
  have hrec : ∃ r, (process_opportunity env inp.downloadAttachments
      inp.extractText opp).record = some r ∧
      r.naicsCode = none ∧ r.pscCode = none ∧ r.setAsideType = none ∧
      r.setAsideDescription = none ∧ r.placeOfPerformance = none ∧
      r.contacts = none ∧ r.award = none := by
    cases hdl : inp.downloadAttachments with
    | false =>
      exact ⟨mkBaseRecord env.now opp,
        by simp [process_opportunity, hfetch, hdl],
        rfl, rfl, rfl, rfl, rfl, rfl, rfl⟩
    | true =>
      refine ⟨{ mkBaseRecord env.now opp with
          attachments := (get_and_download_attachments env
            (opp.oppId.getD "") inp.extractText).files
          attachmentTexts := if inp.extractText then
            (get_and_download_attachments env
              (opp.oppId.getD "") inp.extractText).texts else [] },
        ?_, rfl, rfl, rfl, rfl, rfl, rfl, rfl⟩
      simp [process_opportunity, hfetch, hdl]
  obtain ⟨r, hr, f1, f2, f3, f4, f5, f6, f7⟩ := hrec
  refine ⟨r, hr, f1, f2, f3, f4, f5, f6, f7, ?_⟩
  intro st hseen
  unfold procStep
  rw [if_neg hseen]
  dsimp only
  rw [hr]

/-- Witness for `detail_failure_nonfatal` at a simulated 500. -/
theorem detail_failure_nonfatal_witness :
    get_opportunity_details envDetail500 "opp-1" = Except.ok none ∧
    ∃ r, (process_opportunity envDetail500 true false sampleSummary).record = some r ∧
      r.naicsCode = none ∧ r.award = none ∧
      (procStep envDetail500 ⟨true, false, 2⟩ initState sampleSummary).pushed =
        initState.pushed ++ [(some "opp-1", r)] := by
  obtain ⟨h1, h2, r, hr, f1, f2, f3, f4, f5, f6, f7, hpush⟩ :=
    detail_failure_nonfatal envDetail500 ⟨true, false, 2⟩ sampleSummary 500
      (Except.ok { data2 := none }) (by decide) rfl
  exact ⟨h1, r, hr, f1, f7, hpush initState (by decide)⟩

/-! ## Claim C10 — enrichment happens at most once per identifier -/

/-- Every event of a per-attachment step is a browser-session navigation. -/
theorem handleAttachment_events_sub (env : Env) (oppId : String) (ex : Bool)
    (a : Option RawAttachment) (e : Ev)
    (he : e ∈ (handleAttachment env oppId ex a).events) :
    e = Ev.browserNavOpp oppId ∨ ∃ u, e = Ev.browserNavDownload u := by
  match a with
  | none => simp [handleAttachment] at he
  | some a =>
    by_cases h1 : a.deletedFlag = some "1"
    · simp [handleAttachment, h1] at he
    · match hrid : a.resourceId with
      | none => simp [handleAttachment, h1, hrid] at he
      | some rid =>
        by_cases h2 : rid = ""
        · simp [handleAttachment, h1, hrid, h2] at he
        · by_cases h3 : a.accessLevel.getD "public" = "public"
          · cases hav : env.browser.available with
            | false => simp [handleAttachment, h1, hrid, h2, h3, hav] at he
            | true =>
              cases hnp : env.browser.newPageOk oppId (downloadUrlFor rid) with
              | false =>
                simp [handleAttachment, h1, hrid, h2, h3, hav, hnp] at he
              | true =>
                cases hgoto : env.browser.gotoOppOk oppId (downloadUrlFor rid) with
                | false =>
                  simp [handleAttachment, h1, hrid, h2, h3, hav, hnp, hgoto] at he
                  exact Or.inl he
                | true =>
                  cases hc : env.browser.capture oppId (downloadUrlFor rid) with
                  | none =>
                    simp [handleAttachment, h1, hrid, h2, h3, hav, hnp, hgoto,
                      hc] at he
                    rcases he with rfl | rfl
                    · exact Or.inl rfl
                    · exact Or.inr ⟨_, rfl⟩
                  | some content =>
                    by_cases hlen : 0 < content.length
                    · cases hst : env.storeOk oppId (downloadUrlFor rid) with
                      | false =>
                        simp [handleAttachment, h1, hrid, h2, h3, hav, hnp,
                          hgoto, hc, hlen, hst] at he
                        rcases he with rfl | rfl
                        · exact Or.inl rfl
                        · exact Or.inr ⟨_, rfl⟩
                      | true =>
                        simp [handleAttachment, h1, hrid, h2, h3, hav, hnp,
                          hgoto, hc, hlen, hst] at he
                        rcases he with rfl | rfl
                        · exact Or.inl rfl
                        · exact Or.inr ⟨_, rfl⟩
                    · simp [handleAttachment, h1, hrid, h2, h3, hav, hnp,
                        hgoto, hc, hlen] at he
                      rcases he with rfl | rfl
                      · exact Or.inl rfl
                      · exact Or.inr ⟨_, rfl⟩
          · simp [handleAttachment, h1, hrid, h2, h3] at he

theorem processAttachments_events_sub (env : Env) (oppId : String) (ex : Bool) :
    ∀ (l : List (Option RawAttachment)) (e : Ev),
      e ∈ (processAttachments env oppId ex l).events →
      e = Ev.browserNavOpp oppId ∨ ∃ u, e = Ev.browserNavDownload u
  | [], e, he => by simp [processAttachments] at he
  | a :: r, e, he => by
    simp only [processAttachments, List.mem_append] at he
    rcases he with h | h
    · exact handleAttachment_events_sub env oppId ex a e h
    · exact processAttachments_events_sub env oppId ex r e h

/-- `process_opportunity` never emits an orchestrator `proc` event. -/
theorem process_opportunity_no_proc (env : Env) (dl ex : Bool) (opp : Summary)
    (oid : Option String) :
    Ev.proc oid ∉ (process_opportunity env dl ex opp).events := by
  intro hmem
  unfold process_opportunity at hmem
  dsimp only at hmem
  split at hmem
  · simp at hmem
  · split at hmem
    · simp only [List.mem_cons] at hmem
      rcases hmem with h | hmem
    -- head is a detail-fetch event
      · exact Ev.noConfusion h
      · unfold get_and_download_attachments at hmem
        split at hmem
        · simp at hmem
        · dsimp only at hmem
          simp only [List.mem_cons] at hmem
          rcases hmem with h | hmem
          · exact Ev.noConfusion h
          · rcases processAttachments_events_sub env _ ex _ _ hmem with h | ⟨u, h⟩
            · exact Ev.noConfusion h
            · exact Ev.noConfusion h
    · simp at hmem

/-- Unseen-id step: the trace gains the `proc` marker followed by the
processing events, and the id is pushed onto the seen list. -/
theorem procStep_trace_seen (env : Env) (inp : RunInput) (st : LoopState)
    (opp : Summary) (hseen : opp.oppId ∉ st.seen) :
    (procStep env inp st opp).trace =
      st.trace ++ Ev.proc opp.oppId ::
        (process_opportunity env inp.downloadAttachments
          inp.extractText opp).events ∧
    (procStep env inp st opp).seen = opp.oppId :: st.seen := by
  unfold procStep
  rw [if_neg hseen]
  dsimp only
  split
  · exact ⟨rfl, rfl⟩
  · exact ⟨rfl, rfl⟩

theorem procInv_init : ProcInv initState := by
  intro oid
  simp [initState]

theorem procStep_procInv (env : Env) (inp : RunInput) (st : LoopState)
    (opp : Summary) (h : ProcInv st) : ProcInv (procStep env inp st opp) := by
  by_cases hseen : opp.oppId ∈ st.seen
  · rw [procStep_skip env inp st opp hseen]; exact h
  · obtain ⟨htr, hsn⟩ := procStep_trace_seen env inp st opp hseen
    intro oid
    have hnp := process_opportunity_no_proc env inp.downloadAttachments
      inp.extractText opp oid
    have hz : (process_opportunity env inp.downloadAttachments
        inp.extractText opp).events.count (Ev.proc oid) = 0 :=
      List.count_eq_zero.mpr hnp
    rw [htr, hsn]
    constructor
    · intro hm
      rcases List.mem_append.mp hm with h1 | h1
      · exact List.mem_cons_of_mem _ ((h oid).1 h1)
      · rcases List.mem_cons.mp h1 with h2 | h2
        · obtain rfl : oid = opp.oppId := by
            simpa using h2
          exact List.mem_cons_self _ _
        · exact absurd h2 hnp
    · rw [List.count_append]
      by_cases heq : oid = opp.oppId
      · subst heq
        have h0 : st.trace.count (Ev.proc opp.oppId) = 0 := by
          apply List.count_eq_zero.mpr
          intro hm
          exact hseen ((h opp.oppId).1 hm)
        rw [h0]
        simp [List.count_cons, hz]
      · have h1 := (h oid).2
        have h2 : (Ev.proc opp.oppId ::
            (process_opportunity env inp.downloadAttachments
              inp.extractText opp).events).count (Ev.proc oid) = 0 := by
          simp [List.count_cons, hz, heq]
        omega

theorem processPage_procInv (env : Env) (inp : RunInput) :
    ∀ (l : List Summary) (st : LoopState), ProcInv st →
      ProcInv (processPage env inp st l)
  | [], _, h => h
  | o :: r, st, h => by
    by_cases h2 : inp.maxOpportunities ≤ st.fetched
    · rw [processPage_stop env inp st _ h2]; exact h
    · simp only [processPage, if_neg h2]
      exact processPage_procInv env inp r _ (procStep_procInv env inp st o h)

theorem runPages_procInv (env : Env) (inp : RunInput) :
    ∀ (fuel page : Nat) (st : LoopState), ProcInv st →
      ProcInv (runPages env inp fuel page st)
  | 0, _, _, h => h
  | n + 1, page, st, h => by
    unfold runPages
    by_cases hc : st.fetched < inp.maxOpportunities
    · rw [if_pos hc]
      have h' : ProcInv { st with trace := st.trace ++ [Ev.searchPage page] } := by
        intro oid
        constructor
        · intro hm
          rcases List.mem_append.mp hm with h1 | h1
          · exact (h oid).1 h1
          · simp at h1
        · have hcnt := (h oid).2
          have hone : ([Ev.searchPage page] : List Ev).count (Ev.proc oid) = 0 := by
            simp
          show (st.trace ++ [Ev.searchPage page]).count (Ev.proc oid) ≤ 1
          rw [List.count_append]
          omega
      split
      · exact h'
      · exact h'
      · exact runPages_procInv env inp n (page + 1) _ (processPage_procInv env inp _ _ h')
    · rw [if_neg hc]; exact h

/-- Claim C10: in every run each dedup key enters processing at most once
(the `proc` marker occurs at most once per id in the trace); an id whose
processing raises is not pushed and not counted, yet remains in the seen set;
and a later occurrence of a seen id is skipped, not retried. -/
theorem enrichment_at_most_once (env : Env) (inp : RunInput) :
    (∀ fuel oid,
        (runScraper env inp fuel).trace.count (Ev.proc oid) ≤ 1) ∧
    (∀ st opp, opp.oppId ∉ st.seen →
        (process_opportunity env inp.downloadAttachments
          inp.extractText opp).record = none →
        (procStep env inp st opp).pushed = st.pushed ∧
        (procStep env inp st opp).fetched = st.fetched ∧
        opp.oppId ∈ (procStep env inp st opp).seen) ∧
    (∀ st opp rest, opp.oppId ∈ st.seen →
        processPage env inp st (opp :: rest) = processPage env inp st rest) := by
  refine ⟨fun fuel oid =>
      ((runPages_procInv env inp fuel 0 initState procInv_init) oid).2,
    ?_, fun st opp rest h => processPage_skip env inp st opp rest h⟩
  intro st opp hseen hrec
  unfold procStep
  rw [if_neg hseen]
  dsimp only
  rw [hrec]
  exact ⟨rfl, rfl, List.mem_cons_self _ _⟩

/-- Witness for `enrichment_at_most_once`: a crashing detail body. -/
theorem enrichment_at_most_once_witness :
    (runScraper envDetailCrash ⟨true, false, 2⟩ 3).trace.count
        (Ev.proc (some "opp-1")) ≤ 1 ∧
    ((procStep envDetailCrash ⟨true, false, 2⟩ initState sampleSummary).pushed =
        initState.pushed ∧
      (procStep envDetailCrash ⟨true, false, 2⟩ initState sampleSummary).fetched =
        initState.fetched ∧
      sampleSummary.oppId ∈
        (procStep envDetailCrash ⟨true, false, 2⟩ initState sampleSummary).seen) ∧
    processPage envDetailCrash ⟨true, false, 2⟩ stSeen [sampleSummary] =
      processPage envDetailCrash ⟨true, false, 2⟩ stSeen [] :=
  ⟨(enrichment_at_most_once envDetailCrash ⟨true, false, 2⟩).1 3 (some "opp-1"),
   (enrichment_at_most_once envDetailCrash ⟨true, false, 2⟩).2.1 initState
     sampleSummary (by decide) rfl,
   (enrichment_at_most_once envDetailCrash ⟨true, false, 2⟩).2.2 stSeen
     sampleSummary [] (by decide)⟩

end SamGov
